import Mathlib

/-!
Verification of the M5Core2 Kalimba firmware (two sibling sketches).

Variant 1 is the sketch with per-tine pressed flags, a single active tine
and semitone modifier buttons (file M5Core2-Kalinba.ino, functions
getTineHeight, getTineX, getKeyAtPosition and the loop body).

Variant 2 is the sketch with a selected bar, a last pressed bar and
slide plucks (file M5Kalinba.ino, functions getBarHeight, drawSingleBar,
playNoteShort, playNote and the loop body).

Each loop body is embedded as a pure tick function from a state and a
sampled input to a new state together with the list of externally visible
commands the iteration emits (synth note-on and note-off messages and
per-tine redraw calls), in the order the code performs them.
-/

/-- Externally visible command emitted during one loop iteration: a synth
note-on, a synth note-off (channel, pitch, velocity), or a redraw of one
tine or bar in either the highlighted or the resting style. -/
inductive Ev where
  | noteOn (ch pitch vel : Nat)
  | noteOff (ch pitch vel : Nat)
  | draw (idx : Nat) (highlighted : Bool)
  deriving DecidableEq, Repr

/-- Test whether an event is a synth command (note-on or note-off). -/
def Ev.isSynth : Ev → Bool
  | .noteOn _ _ _ => true
  | .noteOff _ _ _ => true
  | .draw _ _ => false

/-- Test whether an event is a synth note-off. -/
def Ev.isOff : Ev → Bool
  | .noteOff _ _ _ => true
  | _ => false

/-- Number of note-off events in a list. -/
def countNoteOffs (evs : List Ev) : Nat :=
  (evs.filter Ev.isOff).length

/-! ### Variant 1: constants and geometry -/

/-- Tine pitch table of variant 1 (MIDI note numbers, middle C4 = 60). -/
def tine_notes : List Nat :=
  [86, 83, 79, 76, 72, 69, 65, 62, 60, 64, 67, 71, 74, 77, 81, 84, 88]

def DISPLAY_WIDTH : Nat := 320

def TINE_WIDTH : Nat := 16

def TINE_GAP : Nat := 2

def TINE_PITCH : Nat := TINE_WIDTH + TINE_GAP

def TINE_START_X : Nat := (DISPLAY_WIDTH - (17 * TINE_PITCH - TINE_GAP)) / 2

def BRIDGE_Y : Nat := 22

def TINE_CENTER_HEIGHT : Nat := 150

def TINE_EDGE_STEP : Nat := 8

/-- Height of the tine at physical position pos, variant 1. The source
computes a signed distance from the center index 8, takes its absolute
value, and returns the int result converted to uint16. -/
def getTineHeight (pos : Nat) : Nat :=
  let dist : Int := (pos : Int) - 8
  let dist : Int := if dist < 0 then -dist else dist
  (((TINE_CENTER_HEIGHT : Int) - dist * (TINE_EDGE_STEP : Int)) % 65536).toNat

/-- X coordinate of the tine at physical position pos, variant 1. -/
def getTineX (pos : Nat) : Nat :=
  (TINE_START_X + pos * TINE_PITCH) % 65536

/-- Hit tester of variant 1: map a touch coordinate to the first tine whose
horizontal band and vertical span contain it, scanning positions 0..16 in
index order; minus one means no hit. Points above the bridge line are
rejected up front. -/
def getKeyAtPosition (x y : Nat) : Int :=
  if y < BRIDGE_Y then -1
  else
    match (List.range 17).find? (fun pos =>
        decide (getTineX pos ≤ x) && decide (x < getTineX pos + TINE_WIDTH) &&
        decide (BRIDGE_Y ≤ y) && decide (y ≤ BRIDGE_Y + getTineHeight pos)) with
    | some pos => (pos : Int)
    | none => -1

/-! ### Variant 1: loop state machine -/

/-- Mutable globals of variant 1: the per-tine pressed flags, the MIDI
pitch currently sounding (uint8), and the index of the active tine
(minus one when none). -/
structure V1State where
  key_pressed : List Bool
  active_note_pitch : Nat
  active_tine : Int
  deriving DecidableEq, Repr

/-- Boot state of variant 1: nothing pressed, pitch 0, no active tine. -/
def v1Init : V1State :=
  { key_pressed := List.replicate 17 false
    active_note_pitch := 0
    active_tine := -1 }

/-- Input sampled by one iteration of the variant 1 loop: the touch
changed flag, the number of touch points, the first touch point, and the
two modifier buttons. -/
structure V1Input where
  touch_changed : Bool
  touch_points : Nat
  tx : Nat
  ty : Nat
  btnA : Bool
  btnC : Bool
  deriving DecidableEq, Repr

/-- Semitone offset from the two buttons, in the order the source assigns
it: start at 0, overwrite with -1 if BtnA is pressed, overwrite with +1 if
BtnC is pressed. -/
def semitoneOffset (btnA btnC : Bool) : Int :=
  let o : Int := 0
  let o : Int := if btnA then -1 else o
  if btnC then 1 else o

/-- Pitch stored and emitted when a press lands on tine P with the given
input: the base note of P plus the sampled semitone offset, converted to
uint8 as the source stores it in active_note_pitch. -/
def pressPitch (P : Nat) (i : V1Input) : Nat :=
  (((tine_notes.getD P 0 : Int) + semitoneOffset i.btnA i.btnC) % 256).toNat

/-- Events of the release sweep of variant 1: for each index 0..16 whose
pressed flag is set, in index order, a note-off for the currently stored
pitch followed by a resting redraw of that tine. -/
def releaseEvents (kp : List Bool) (pitch : Nat) : List Ev :=
  ((List.range 17).filter (fun j => kp.getD j false)).flatMap
    (fun j => [Ev.noteOff 0 pitch 0, Ev.draw j false])

/-- One iteration of the variant 1 loop body. First the press branch: when
the touch changed and a point is present, hit-test it; on a hit pos whose
pressed flag is clear, release a previously active different tine (clear
its flag, note-off the stored pitch, resting redraw), then set the flag of
pos, make it active with pitch base plus offset, emit note-on and a
highlighted redraw. Then the release branch: when no point is present,
sweep all 17 flags, emitting note-off and a resting redraw per set flag,
and reset the active tine and pitch. -/
def v1Tick (s : V1State) (i : V1Input) : V1State × List Ev :=
  let off := semitoneOffset i.btnA i.btnC
  let step1 : V1State × List Ev :=
    if i.touch_changed = true ∧ 0 < i.touch_points then
      let pos := getKeyAtPosition i.tx i.ty
      if 0 ≤ pos ∧ (s.key_pressed.getD pos.toNat false) = false then
        let step0 : V1State × List Ev :=
          if 0 ≤ s.active_tine ∧ s.active_tine ≠ pos then
            ({ s with key_pressed := s.key_pressed.set s.active_tine.toNat false },
             [Ev.noteOff 0 s.active_note_pitch 0, Ev.draw s.active_tine.toNat false])
          else (s, [])
        let pitch := (((tine_notes.getD pos.toNat 0 : Int) + off) % 256).toNat
        ({ key_pressed := step0.1.key_pressed.set pos.toNat true
           active_note_pitch := pitch
           active_tine := pos },
         step0.2 ++ [Ev.noteOn 0 pitch 100, Ev.draw pos.toNat true])
      else (s, [])
    else (s, [])
  if i.touch_points = 0 then
    ({ key_pressed := step1.1.key_pressed.map (fun _ => false)
       active_note_pitch := 0
       active_tine := -1 },
     step1.2 ++ releaseEvents step1.1.key_pressed step1.1.active_note_pitch)
  else step1

/-- Run the variant 1 loop over a list of sampled inputs, concatenating
the emitted events in order. -/
def v1Run (s : V1State) : List V1Input → V1State × List Ev
  | [] => (s, [])
  | i :: rest =>
    let t := v1Tick s i
    let r := v1Run t.1 rest
    (r.1, t.2 ++ r.2)

/-- The active state of variant 1 after a press on tine P stored pitch p:
only the flag of P is set, P is the active tine and p the stored pitch. -/
def v1Active (P : Nat) (p : Nat) : V1State :=
  { key_pressed := (List.replicate 17 false).set P true
    active_note_pitch := p
    active_tine := (P : Int) }

/-- Reachability invariant of variant 1: the pressed array has its 17
entries, and either no tine is active and no flag is set, or the active
tine is some P in 0..16 and exactly the flag of P is set. -/
def V1Inv (s : V1State) : Prop :=
  (s.active_tine = -1 ∧ s.key_pressed = List.replicate 17 false) ∨
  (0 ≤ s.active_tine ∧ s.active_tine < 17 ∧
    s.key_pressed = (List.replicate 17 false).set s.active_tine.toNat true)

instance (s : V1State) : Decidable (V1Inv s) := by
  unfold V1Inv; infer_instance

/-! ### Variant 2: constants, geometry and loop state machine -/

/-- Bar pitch table of variant 2. The source names library constants
NOTE_D5, NOTE_B4, ..., which carry standard MIDI note numbers (C4 = 60). -/
def notes : List Nat :=
  [74, 71, 67, 64, 60, 57, 53, 50, 36, 52, 55, 59, 62, 65, 69, 72, 76]

def barCount : Nat := 17

def barWidth : Nat := 320 / barCount

def maxHeight : Int := 200

def stepHeight : Int := 6

def centerIndex : Nat := barCount / 2

def barY : Nat := 20

/-- Height of the bar at the given index, variant 2: the max height minus
the step times the absolute distance from the center index. -/
def getBarHeight (index : Nat) : Int :=
  let dist : Int := ((index : Int) - (centerIndex : Int)).natAbs
  maxHeight - dist * stepHeight

/-- X coordinate where drawSingleBar paints the bar at the given index. -/
def barX (index : Nat) : Nat := index * barWidth

/-- Width of the painted rectangle of each bar in drawSingleBar; the
remaining 1 pixel of the bar pitch is the gap between bars. -/
def drawnBarWidth : Nat := barWidth - 1

/-- Mutable globals of variant 2: the highlighted bar, the bar to fire on
release (each minus one when none), and whether the previous frame was
touched. -/
structure V2State where
  selectedBar : Int
  lastPressedBar : Int
  wasPressed : Bool
  deriving DecidableEq, Repr

/-- Boot state of variant 2. -/
def v2Init : V2State :=
  { selectedBar := -1, lastPressedBar := -1, wasPressed := false }

/-- Input sampled by one iteration of the variant 2 loop: the pressed
flag and the reported press point. -/
structure V2Input where
  isPressed : Bool
  tx : Nat
  ty : Nat
  deriving DecidableEq, Repr

/-- Events of playNoteShort: for an index in 0..16, a note-on immediately
followed (after a short blocking delay, not modelled) by a note-off for
the note of that bar, both at velocity 127; otherwise nothing. -/
def playNoteShort (index : Int) : List Ev :=
  if 0 ≤ index ∧ index < (barCount : Int) then
    [Ev.noteOn 0 (notes.getD index.toNat 0) 127,
     Ev.noteOff 0 (notes.getD index.toNat 0) 127]
  else []

/-- Events of playNote: for an index in 0..16, a single note-on (onoff
true) or note-off (onoff false) at velocity 127; otherwise nothing. -/
def playNote (index : Int) (onoff : Bool) : List Ev :=
  if 0 ≤ index ∧ index < (barCount : Int) then
    if onoff = true then [Ev.noteOn 0 (notes.getD index.toNat 0) 127]
    else [Ev.noteOff 0 (notes.getD index.toNat 0) 127]
  else []

/-- One iteration of the variant 2 loop body. While pressed: divide x by
the bar width; if the quotient is a valid index and y lies on that bar,
then on a change of selection unhighlight the previous selection (when in
range), highlight and pluck the new bar, and in every on-bar case record
it as last pressed; off-bar or out of range, unhighlight any selection.
On the frame where the touch lifts, if a last pressed bar is recorded,
unhighlight any selection and emit a full note-on for it (no note-off is
ever paired with it), then clear it. Finally remember the pressed flag. -/
def v2Tick (s : V2State) (i : V2Input) : V2State × List Ev :=
  let step1 : V2State × List Ev :=
    if i.isPressed = true then
      let barIndex : Int := ((i.tx / barWidth : Nat) : Int)
      if 0 ≤ barIndex ∧ barIndex < (barCount : Int) then
        let barH := getBarHeight barIndex.toNat
        if (barY : Int) ≤ (i.ty : Int) ∧ (i.ty : Int) ≤ (barY : Int) + barH then
          if s.selectedBar ≠ barIndex then
            let ev1 : List Ev :=
              if 0 ≤ s.selectedBar ∧ s.selectedBar < (barCount : Int) then
                [Ev.draw s.selectedBar.toNat false]
              else []
            ({ selectedBar := barIndex, lastPressedBar := barIndex,
               wasPressed := s.wasPressed },
             ev1 ++ [Ev.draw barIndex.toNat true] ++ playNoteShort barIndex)
          else
            ({ s with lastPressedBar := barIndex }, [])
        else
          if s.selectedBar ≠ -1 then
            ({ s with selectedBar := -1 }, [Ev.draw s.selectedBar.toNat false])
          else (s, [])
      else
        if s.selectedBar ≠ -1 then
          ({ s with selectedBar := -1 }, [Ev.draw s.selectedBar.toNat false])
        else (s, [])
    else
      if s.wasPressed = true then
        if s.lastPressedBar ≠ -1 then
          let unhi : List Ev × Int :=
            if s.selectedBar ≠ -1 then
              ([Ev.draw s.selectedBar.toNat false], -1)
            else ([], s.selectedBar)
          ({ selectedBar := unhi.2, lastPressedBar := -1,
             wasPressed := s.wasPressed },
           unhi.1 ++ playNote s.lastPressedBar true)
        else (s, [])
      else (s, [])
  ({ step1.1 with wasPressed := i.isPressed }, step1.2)

/-- Run the variant 2 loop over a list of sampled inputs, concatenating
the emitted events in order. -/
def v2Run (s : V2State) : List V2Input → V2State × List Ev
  | [] => (s, [])
  | i :: rest =>
    let t := v2Tick s i
    let r := v2Run t.1 rest
    (r.1, t.2 ++ r.2)

/-- Index-range invariant of variant 2: the two stored bar indices are
minus one or in 0..16. -/
def V2Inv (s : V2State) : Prop :=
  (s.selectedBar = -1 ∨ (0 ≤ s.selectedBar ∧ s.selectedBar < 17)) ∧
  (s.lastPressedBar = -1 ∨ (0 ≤ s.lastPressedBar ∧ s.lastPressedBar < 17))

instance (s : V2State) : Decidable (V2Inv s) := by
  unfold V2Inv; infer_instance

/-! ### Spec side formulas for the layout contract -/

/-- Layout height as the specification words it: a center height minus a
step times the absolute distance of the position from the center index. -/
def spec_height (centerH step : Int) (center pos : Nat) : Int :=
  centerH - step * ((((pos : Int) - (center : Int)).natAbs : Int))

/-- Layout x coordinate as the specification words it: a fixed start
offset plus the position times the pitch. -/
def spec_x (start pitch pos : Nat) : Nat := start + pos * pitch

/-! ### Helper lemmas -/

/-- The hit tester returns minus one or an index in 0..16. -/
lemma getKey_cases (x y : Nat) :
    getKeyAtPosition x y = -1 ∨
      ∃ P : Nat, P < 17 ∧ getKeyAtPosition x y = (P : Int) := by
  unfold getKeyAtPosition
  by_cases hy : y < BRIDGE_Y
  · simp [hy]
  · simp only [hy, if_false]
    rcases hfind : (List.range 17).find? (fun pos =>
        decide (getTineX pos ≤ x) && decide (x < getTineX pos + TINE_WIDTH) &&
        decide (BRIDGE_Y ≤ y) && decide (y ≤ BRIDGE_Y + getTineHeight pos))
      with _ | pos
    · simp
    · right
      refine ⟨pos, ?_, rfl⟩
      exact List.mem_range.mp (List.mem_of_find?_eq_some hfind)

lemma getD_replicate_17 : ∀ j, j < 17 →
    (List.replicate 17 false).getD j false = false := by decide

lemma getD_set_self_17 : ∀ P, P < 17 →
    ((List.replicate 17 false).set P true).getD P false = true := by decide

lemma getD_set_other_17 : ∀ P, P < 17 → ∀ j, j < 17 → j ≠ P →
    ((List.replicate 17 false).set P true).getD j false = false := by decide

lemma set_clear_set_17 : ∀ Q, Q < 17 → ∀ P, P < 17 →
    (((List.replicate 17 false).set Q true).set Q false).set P true =
      (List.replicate 17 false).set P true := by decide

lemma map_false_set_17 : ∀ P, P < 17 →
    ((List.replicate 17 false).set P true).map (fun _ => false) =
      List.replicate 17 false := by decide

lemma filter_set_17 : ∀ P, P < 17 →
    (((List.replicate 17 false).set P true).filter (fun b => b)).length = 1 := by
  decide

lemma releaseEvents_idle (p : Nat) :
    releaseEvents (List.replicate 17 false) p = [] := rfl

lemma releaseEvents_active (p : Nat) : ∀ P, P < 17 →
    releaseEvents ((List.replicate 17 false).set P true) p =
      [Ev.noteOff 0 p 0, Ev.draw P false] := by
  intro P hP
  interval_cases P <;> rfl

lemma map_false_replicate :
    (List.replicate 17 false).map (fun _ => false) = List.replicate 17 false := rfl

/-- Press step of variant 1 from an idle state (any stored pitch): landing
on tine P emits one note-on at the press pitch and one highlighted redraw,
and moves to the active state for P. -/
lemma v1_press_step (p0 : Nat) (P : Nat) (hP : P < 17) (i : V1Input)
    (hch : i.touch_changed = true) (hpt : 0 < i.touch_points)
    (hhit : getKeyAtPosition i.tx i.ty = (P : Int)) :
    v1Tick { key_pressed := List.replicate 17 false, active_note_pitch := p0,
             active_tine := -1 } i =
      (v1Active P (pressPitch P i),
       [Ev.noteOn 0 (pressPitch P i) 100, Ev.draw P true]) := by
  have hnz : ¬ i.touch_points = 0 := by omega
  have hkp := getD_replicate_17 P hP
  simp at hkp
  simp [v1Tick, v1Active, pressPitch, hch, hpt, hhit, hnz, hkp]

/-- Hold step of variant 1: while the active tine P stays touched, the
tick emits nothing and preserves the state. -/
lemma v1_hold_step (P p : Nat) (hP : P < 17) (i : V1Input)
    (hpt : 0 < i.touch_points)
    (hhit : getKeyAtPosition i.tx i.ty = (P : Int)) :
    v1Tick (v1Active P p) i = (v1Active P p, []) := by
  have hnz : ¬ i.touch_points = 0 := by omega
  have hkp := getD_set_self_17 P hP
  simp at hkp
  by_cases hch : i.touch_changed = true ∧ 0 < i.touch_points
  · simp [v1Tick, v1Active, hch, hhit, hnz, hkp]
  · simp [v1Tick, v1Active, hch, hnz]

/-- Release step of variant 1: on a tick with no touch point reported while
tine P is active with stored pitch p, the tick emits exactly one note-off
carrying p and one resting redraw of P, and returns to the boot state. -/
lemma v1_release_step (P p : Nat) (hP : P < 17) (i : V1Input)
    (hpt : i.touch_points = 0) :
    v1Tick (v1Active P p) i =
      (v1Init, [Ev.noteOff 0 p 0, Ev.draw P false]) := by
  have h1 := map_false_set_17 P hP
  have h2 := releaseEvents_active p P hP
  simp at h1 h2
  simp [v1Tick, v1Active, v1Init, hpt, h1, h2]

/-- Release step of variant 1 from an idle state: nothing is emitted. -/
lemma v1_norelease_step (p0 : Nat) (i : V1Input) (hpt : i.touch_points = 0) :
    v1Tick { key_pressed := List.replicate 17 false, active_note_pitch := p0,
             active_tine := -1 } i = (v1Init, []) := by
  have h1 := map_false_replicate
  have h2 := releaseEvents_idle p0
  simp at h1 h2
  simp [v1Tick, v1Init, hpt, h1, h2]

/-- Switch step of variant 1: a press landing on P while Q is active with
stored pitch oldp first emits the note-off for oldp and the resting redraw
of Q, then the note-on and highlighted redraw for P. -/
lemma v1_switch_step (Q P oldp : Nat) (hQ : Q < 17) (hP : P < 17)
    (hne : P ≠ Q) (i : V1Input)
    (hch : i.touch_changed = true) (hpt : 0 < i.touch_points)
    (hhit : getKeyAtPosition i.tx i.ty = (P : Int)) :
    v1Tick (v1Active Q oldp) i =
      (v1Active P (pressPitch P i),
       [Ev.noteOff 0 oldp 0, Ev.draw Q false,
        Ev.noteOn 0 (pressPitch P i) 100, Ev.draw P true]) := by
  have hnz : ¬ i.touch_points = 0 := by omega
  have hkp := getD_set_other_17 Q hQ P hP hne
  have hQP : (Q : Int) ≠ (P : Int) := by
    intro hc
    exact hne (by exact_mod_cast hc.symm)
  have hset := set_clear_set_17 Q hQ P hP
  simp at hkp hset
  simp [v1Tick, v1Active, pressPitch, hch, hpt, hhit, hnz, hkp, hQP, hset]

/-- A touched tick that hits no tine changes nothing and emits nothing. -/
lemma v1_nohit_step (s : V1State) (i : V1Input)
    (hpt : 0 < i.touch_points)
    (hhit : getKeyAtPosition i.tx i.ty = -1) :
    v1Tick s i = (s, []) := by
  have hnz : ¬ i.touch_points = 0 := by omega
  by_cases hch : i.touch_changed = true ∧ 0 < i.touch_points
  · simp [v1Tick, hch, hhit, hnz]
  · simp [v1Tick, hch, hnz]

/-- A tick with a touch present but no change reported changes nothing. -/
lemma v1_idle_tick (s : V1State) (i : V1Input)
    (hch : ¬ (i.touch_changed = true ∧ 0 < i.touch_points))
    (hnz : ¬ i.touch_points = 0) :
    v1Tick s i = (s, []) := by
  simp [v1Tick, hch, hnz]

lemma v1Active_inv (P p : Nat) (hP : P < 17) : V1Inv (v1Active P p) := by
  right
  refine ⟨?_, ?_, ?_⟩
  · simp [v1Active]
  · simp only [v1Active]
    exact_mod_cast hP
  · simp [v1Active]

lemma v1Init_inv : V1Inv v1Init := by decide

/-- One tick of variant 1 preserves the reachability invariant. -/
lemma v1_inv_step (s : V1State) (i : V1Input) (h : V1Inv s) :
    V1Inv (v1Tick s i).1 := by
  obtain ⟨kp, p, q⟩ := s
  by_cases hch : i.touch_changed = true ∧ 0 < i.touch_points
  · have hnz : ¬ i.touch_points = 0 := by omega
    rcases getKey_cases i.tx i.ty with hk | ⟨P, hP, hk⟩
    · rw [v1_nohit_step _ i hch.2 hk]
      exact h
    · rcases h with ⟨ht, hkp⟩ | ⟨h0, h17, hkp⟩
      · simp only at ht hkp
        subst ht hkp
        rw [v1_press_step p P hP i hch.1 hch.2 hk]
        exact v1Active_inv P (pressPitch P i) hP
      · simp only at h0 h17 hkp
        obtain ⟨Q, hq, hQ⟩ : ∃ Q : Nat, q = (Q : Int) ∧ Q < 17 :=
          ⟨q.toNat, (Int.toNat_of_nonneg h0).symm, by omega⟩
        subst hq
        rw [Int.toNat_natCast] at hkp
        subst hkp
        have hs : (⟨(List.replicate 17 false).set Q true, p, (Q : Int)⟩ : V1State) =
            v1Active Q p := rfl
        rw [hs]
        by_cases hPQ : P = Q
        · subst hPQ
          rw [v1_hold_step P p hP i hch.2 hk]
          exact v1Active_inv P p hP
        · rw [v1_switch_step Q P p hQ hP hPQ i hch.1 hch.2 hk]
          exact v1Active_inv P (pressPitch P i) hP
  · by_cases hp0 : i.touch_points = 0
    · rcases h with ⟨ht, hkp⟩ | ⟨h0, h17, hkp⟩
      · simp only at ht hkp
        subst ht hkp
        rw [v1_norelease_step p i hp0]
        exact v1Init_inv
      · simp only at h0 h17 hkp
        obtain ⟨Q, hq, hQ⟩ : ∃ Q : Nat, q = (Q : Int) ∧ Q < 17 :=
          ⟨q.toNat, (Int.toNat_of_nonneg h0).symm, by omega⟩
        subst hq
        rw [Int.toNat_natCast] at hkp
        subst hkp
        have hs : (⟨(List.replicate 17 false).set Q true, p, (Q : Int)⟩ : V1State) =
            v1Active Q p := rfl
        rw [hs, v1_release_step Q p hQ i hp0]
        exact v1Init_inv
    · rw [v1_idle_tick _ i hch hp0]
      exact h

/-- The invariant holds after any run of variant 1 from boot. -/
lemma v1_inv_run (inputs : List V1Input) : V1Inv (v1Run v1Init inputs).1 := by
  suffices hgen : ∀ s, V1Inv s → V1Inv (v1Run s inputs).1 from hgen v1Init v1Init_inv
  induction inputs with
  | nil => intro s h; exact h
  | cons i rest ih =>
    intro s h
    exact ih (v1Tick s i).1 (v1_inv_step s i h)

/-- A no-touch tick of variant 1 from an invariant state lands in the boot
state and emits at most one note-off. -/
lemma v1_release_chain (s : V1State) (h : V1Inv s) (i : V1Input)
    (hpt : i.touch_points = 0) :
    (v1Tick s i).1 = v1Init ∧ countNoteOffs (v1Tick s i).2 ≤ 1 := by
  obtain ⟨kp, p, q⟩ := s
  rcases h with ⟨ht, hkp⟩ | ⟨h0, h17, hkp⟩
  · simp only at ht hkp
    subst ht hkp
    rw [v1_norelease_step p i hpt]
    exact ⟨rfl, by decide⟩
  · simp only at h0 h17 hkp
    obtain ⟨Q, hq, hQ⟩ : ∃ Q : Nat, q = (Q : Int) ∧ Q < 17 :=
      ⟨q.toNat, (Int.toNat_of_nonneg h0).symm, by omega⟩
    subst hq
    rw [Int.toNat_natCast] at hkp
    subst hkp
    have hs : (⟨(List.replicate 17 false).set Q true, p, (Q : Int)⟩ : V1State) =
        v1Active Q p := rfl
    rw [hs, v1_release_step Q p hQ i hpt]
    refine ⟨rfl, ?_⟩
    simp [countNoteOffs, Ev.isOff]

/-- One tick of variant 2 keeps both stored bar indices in -1 or 0..16. -/
lemma v2_inv_step (s : V2State) (i : V2Input) (h : V2Inv s) :
    V2Inv (v2Tick s i).1 := by
  obtain ⟨hsel, hlp⟩ := h
  simp only [v2Tick, V2Inv, barCount] at *
  split_ifs <;> dsimp only <;> omega

/-- A pressed tick of variant 2 whose point lies outside every valid bar
band clears the selection (emitting a resting redraw when one was
highlighted), leaves the last pressed bar unchanged, and emits no synth
command. -/
lemma v2_offband_step (s : V2State) (i : V2Input)
    (hp : i.isPressed = true)
    (hout : (17 : Int) ≤ ((i.tx / barWidth : Nat) : Int) ∨
      (i.ty : Int) < (barY : Int) ∨
      (barY : Int) + getBarHeight (i.tx / barWidth) < (i.ty : Int)) :
    v2Tick s i =
      ({ selectedBar := -1, lastPressedBar := s.lastPressedBar,
         wasPressed := true },
       if s.selectedBar = -1 then [] else [Ev.draw s.selectedBar.toNat false]) := by
  simp only [v2Tick, hp]
  rw [if_pos trivial]
  by_cases hbi : ((i.tx / barWidth : Nat) : Int) < 17
  · rw [if_pos (⟨Int.natCast_nonneg _, by simpa [barCount] using hbi⟩ :
      0 ≤ ((i.tx / barWidth : Nat) : Int) ∧
        ((i.tx / barWidth : Nat) : Int) < (barCount : Int))]
    have hy : ¬ ((barY : Int) ≤ (i.ty : Int) ∧
        (i.ty : Int) ≤ (barY : Int) +
          getBarHeight (((i.tx / barWidth : Nat) : Int)).toNat) := by
      rw [Int.toNat_natCast]
      omega
    rw [if_neg hy]
    by_cases hsel : s.selectedBar = -1
    · rw [if_neg (by simpa using hsel), if_pos hsel]
      obtain ⟨sel, lp, wp⟩ := s
      simp only at hsel
      subst hsel
      rfl
    · rw [if_pos hsel, if_neg hsel]
  · rw [if_neg (by simp only [barCount]; omega)]
    by_cases hsel : s.selectedBar = -1
    · rw [if_neg (by simpa using hsel), if_pos hsel]
      obtain ⟨sel, lp, wp⟩ := s
      simp only at hsel
      subst hsel
      rfl
    · rw [if_pos hsel, if_neg hsel]

/-- A no-touch tick of variant 2 clears the was-pressed flag and emits no
note-off at all (the release path emits a bare note-on). -/
lemma v2_release_tick (s : V2State) (j : V2Input) (hq : j.isPressed = false) :
    (v2Tick s j).1.wasPressed = false ∧
      ((v2Tick s j).2.filter Ev.isOff) = [] := by
  refine ⟨?_, ?_⟩ <;>
    simp only [v2Tick, hq] <;>
    split_ifs <;>
    simp_all [playNote, Ev.isOff]

/-- A no-touch tick of variant 2 with the was-pressed flag clear changes
nothing except re-recording the flag, and emits nothing. -/
lemma v2_quiet_tick (s : V2State) (j : V2Input) (hq : j.isPressed = false)
    (hw : s.wasPressed = false) :
    v2Tick s j = ({ s with wasPressed := false }, []) := by
  simp [v2Tick, hq, hw]

lemma v1Init_eq :
    v1Init = { key_pressed := List.replicate 17 false, active_note_pitch := 0,
               active_tine := -1 } := rfl

/-! ### Claim theorems -/

/-- C4: for every position pos in 0..16, the height equals the center
height minus the step times the absolute distance of pos from the center
index 8, and the x coordinate equals the fixed start offset plus pos times
the pitch, where the pitch is the tine width plus the gap; this holds in
variant 1 (getTineHeight, getTineX) and in variant 2 (getBarHeight, and
the bar x used by drawSingleBar, whose painted width plus the 1 pixel gap
is the bar pitch). The embedded functions are pure Lean functions, hence
deterministic and side effect free. -/
theorem layout_matches_spec_formula (pos : Nat) (hpos : pos < 17) :
    ((getTineHeight pos : Int) =
        spec_height (TINE_CENTER_HEIGHT : Int) (TINE_EDGE_STEP : Int) 8 pos ∧
      getTineX pos = spec_x TINE_START_X TINE_PITCH pos ∧
      TINE_PITCH = TINE_WIDTH + TINE_GAP) ∧
    (getBarHeight pos = spec_height maxHeight stepHeight centerIndex pos ∧
      barX pos = spec_x 0 (drawnBarWidth + 1) pos ∧
      centerIndex = 8 ∧ drawnBarWidth + 1 = barWidth) := by
  interval_cases pos <;> decide

/-- C4 witness at position 3. -/
theorem layout_matches_spec_formula_witness :
    ((getTineHeight 3 : Int) =
        spec_height (TINE_CENTER_HEIGHT : Int) (TINE_EDGE_STEP : Int) 8 3 ∧
      getTineX 3 = spec_x TINE_START_X TINE_PITCH 3 ∧
      TINE_PITCH = TINE_WIDTH + TINE_GAP) ∧
    (getBarHeight 3 = spec_height maxHeight stepHeight centerIndex 3 ∧
      barX 3 = spec_x 0 (drawnBarWidth + 1) 3 ∧
      centerIndex = 8 ∧ drawnBarWidth + 1 = barWidth) :=
  layout_matches_spec_formula 3 (by decide)

/-- C5: hit testing the point one pixel inside the left edge of tine pos,
one pixel below the bridge line, returns pos for every pos in 0..16, and
any point strictly above the bridge line resolves to no hit. -/
theorem hit_test_each_tine_and_above_bridge :
    (∀ pos : Nat, pos < 17 →
      getKeyAtPosition (getTineX pos + 1) (BRIDGE_Y + 1) = (pos : Int)) ∧
    (∀ x : Nat, getKeyAtPosition x (BRIDGE_Y - 1) = -1) := by
  constructor
  · decide
  · intro x
    simp [getKeyAtPosition, BRIDGE_Y]

/-- C5 witness at position 5 and at x = 999. -/
theorem hit_test_each_tine_and_above_bridge_witness :
    getKeyAtPosition (getTineX 5 + 1) (BRIDGE_Y + 1) = (5 : Int) ∧
    getKeyAtPosition 999 (BRIDGE_Y - 1) = -1 :=
  ⟨hit_test_each_tine_and_above_bridge.1 5 (by decide),
   hit_test_each_tine_and_above_bridge.2 999⟩

/-- C8: on a pressed tick of variant 2 whose touch point lies outside
every valid bar band (x past the last bar, or y off the bar the x band
selects), the selected bar, if any, is unhighlighted and the selection is
cleared, while the last pressed bar is left unchanged. -/
theorem v2_offband_frame (s : V2State) (i : V2Input)
    (hp : i.isPressed = true)
    (hout : (17 : Int) ≤ ((i.tx / barWidth : Nat) : Int) ∨
      (i.ty : Int) < (barY : Int) ∨
      (barY : Int) + getBarHeight (i.tx / barWidth) < (i.ty : Int)) :
    (v2Tick s i).1.selectedBar = -1 ∧
    (v2Tick s i).1.lastPressedBar = s.lastPressedBar ∧
    (v2Tick s i).2 =
      (if s.selectedBar = -1 then [] else [Ev.draw s.selectedBar.toNat false]) := by
  rw [v2_offband_step s i hp hout]
  exact ⟨rfl, rfl, rfl⟩

/-- C8 witness: selected bar 3, last pressed 5, press at x = 310. -/
theorem v2_offband_frame_witness :
    (v2Tick { selectedBar := 3, lastPressedBar := 5, wasPressed := true }
        { isPressed := true, tx := 310, ty := 50 }).1.selectedBar = -1 ∧
    (v2Tick { selectedBar := 3, lastPressedBar := 5, wasPressed := true }
        { isPressed := true, tx := 310, ty := 50 }).1.lastPressedBar =
      (⟨3, 5, true⟩ : V2State).lastPressedBar ∧
    (v2Tick { selectedBar := 3, lastPressedBar := 5, wasPressed := true }
        { isPressed := true, tx := 310, ty := 50 }).2 =
      (if (⟨3, 5, true⟩ : V2State).selectedBar = -1 then []
       else [Ev.draw (⟨3, 5, true⟩ : V2State).selectedBar.toNat false]) :=
  v2_offband_frame ⟨3, 5, true⟩ ⟨true, 310, 50⟩ rfl (by decide)

/-- C2: from boot, a pressed slide whose point crosses bars 3, 5 and 7
(ticks at x = 60, 95, 130, all on-bar at y = 100) and then lifts produces
the synth sequence pluck of bar 3 (note-on then note-off of pitch 64),
pluck of bar 5 (pitch 57), pluck of bar 7 (pitch 50), then on release a
bare note-on of pitch 50; that final note-on is never matched by a
note-off (pitch 50 gets two note-ons but only the single pluck note-off),
the machine returns to the boot state, and every further no-touch tick
emits nothing. -/
theorem v2_slide_3_5_7_release :
    ((v2Run v2Init
        [{ isPressed := true, tx := 60, ty := 100 },
         { isPressed := true, tx := 95, ty := 100 },
         { isPressed := true, tx := 130, ty := 100 },
         { isPressed := false, tx := 0, ty := 0 }]).2.filter Ev.isSynth =
      [Ev.noteOn 0 64 127, Ev.noteOff 0 64 127,
       Ev.noteOn 0 57 127, Ev.noteOff 0 57 127,
       Ev.noteOn 0 50 127, Ev.noteOff 0 50 127,
       Ev.noteOn 0 50 127]) ∧
    ((v2Run v2Init
        [{ isPressed := true, tx := 60, ty := 100 },
         { isPressed := true, tx := 95, ty := 100 },
         { isPressed := true, tx := 130, ty := 100 },
         { isPressed := false, tx := 0, ty := 0 }]).2.count (Ev.noteOn 0 50 127) = 2 ∧
      (v2Run v2Init
        [{ isPressed := true, tx := 60, ty := 100 },
         { isPressed := true, tx := 95, ty := 100 },
         { isPressed := true, tx := 130, ty := 100 },
         { isPressed := false, tx := 0, ty := 0 }]).2.count (Ev.noteOff 0 50 127) = 1) ∧
    (v2Run v2Init
        [{ isPressed := true, tx := 60, ty := 100 },
         { isPressed := true, tx := 95, ty := 100 },
         { isPressed := true, tx := 130, ty := 100 },
         { isPressed := false, tx := 0, ty := 0 }]).1 = v2Init ∧
    (∀ j : V2Input, j.isPressed = false → v2Tick v2Init j = (v2Init, [])) := by
  refine ⟨by decide, ⟨by decide, by decide⟩, by decide, ?_⟩
  intro j hj
  exact v2_quiet_tick v2Init j hj rfl

/-- C2 witness: a concrete quiescent tick after the slide. -/
theorem v2_slide_3_5_7_release_witness :
    v2Tick v2Init { isPressed := false, tx := 7, ty := 7 } = (v2Init, []) :=
  v2_slide_3_5_7_release.2.2.2 { isPressed := false, tx := 7, ty := 7 } rfl

/-- C1: from boot, a press landing on tine P followed by any number of
ticks whose touch stays on P and then a no-touch tick emits exactly one
note-on (at the landing tick) carrying the base pitch of P plus the
semitone offset sampled at press time, no repeat while held, and exactly
one note-off on lift carrying that same press-time pitch (regardless of
the button state at release time). -/
theorem v1_press_hold_release (P : Nat) (hP : P < 17)
    (ip : V1Input) (holds : List V1Input) (ir : V1Input)
    (hch : ip.touch_changed = true) (hpt : 0 < ip.touch_points)
    (hhit : getKeyAtPosition ip.tx ip.ty = (P : Int))
    (hhold : ∀ ih ∈ holds, 0 < ih.touch_points ∧
      getKeyAtPosition ih.tx ih.ty = (P : Int))
    (hlift : ir.touch_points = 0) :
    (v1Run v1Init (ip :: (holds ++ [ir]))).2 =
      [Ev.noteOn 0 (pressPitch P ip) 100, Ev.draw P true,
       Ev.noteOff 0 (pressPitch P ip) 0, Ev.draw P false] := by
  have haux : ∀ hs : List V1Input,
      (∀ ih ∈ hs, 0 < ih.touch_points ∧
        getKeyAtPosition ih.tx ih.ty = (P : Int)) →
      v1Run (v1Active P (pressPitch P ip)) (hs ++ [ir]) =
        (v1Init, [Ev.noteOff 0 (pressPitch P ip) 0, Ev.draw P false]) := by
    intro hs
    induction hs with
    | nil =>
      intro _
      simp only [List.nil_append, v1Run,
        v1_release_step P (pressPitch P ip) hP ir hlift, List.append_nil]
    | cons ihold rest IH =>
      intro hall
      have h1 := hall ihold (List.mem_cons_self _ _)
      have hrest := fun x hx => hall x (List.mem_cons_of_mem _ hx)
      simp only [List.cons_append, v1Run,
        v1_hold_step P (pressPitch P ip) hP ihold h1.1 h1.2, List.append_eq]
      rw [IH hrest]
      rfl
  simp only [v1Run]
  rw [v1Init_eq, v1_press_step 0 P hP ip hch hpt hhit]
  dsimp only
  rw [haux holds hhold]
  rfl

/-- C1 witness: press tine 0, hold one tick, release. -/
theorem v1_press_hold_release_witness :
    (v1Run v1Init
      [(⟨true, 1, 9, 23, false, false⟩ : V1Input),
       (⟨false, 1, 9, 23, false, false⟩ : V1Input),
       (⟨false, 0, 0, 0, false, false⟩ : V1Input)]).2 =
      [Ev.noteOn 0 (pressPitch 0 (⟨true, 1, 9, 23, false, false⟩ : V1Input)) 100,
       Ev.draw 0 true,
       Ev.noteOff 0 (pressPitch 0 (⟨true, 1, 9, 23, false, false⟩ : V1Input)) 0,
       Ev.draw 0 false] :=
  v1_press_hold_release 0 (by decide)
    ⟨true, 1, 9, 23, false, false⟩
    [⟨false, 1, 9, 23, false, false⟩]
    ⟨false, 0, 0, 0, false, false⟩
    rfl (by decide) (by decide) (by decide) rfl

/-- C6: pressing tine P from boot with the sharp button held emits a
note-on of the base pitch of P plus one; with neither button held, the
base pitch itself; with only the flat button held, the base pitch minus
one. -/
theorem v1_semitone_shift (P : Nat) (hP : P < 17) (i : V1Input)
    (hch : i.touch_changed = true) (hpt : 0 < i.touch_points)
    (hhit : getKeyAtPosition i.tx i.ty = (P : Int)) :
    (i.btnC = true →
      (v1Tick v1Init i).2 =
        [Ev.noteOn 0 (tine_notes.getD P 0 + 1) 100, Ev.draw P true]) ∧
    (i.btnA = false → i.btnC = false →
      (v1Tick v1Init i).2 =
        [Ev.noteOn 0 (tine_notes.getD P 0) 100, Ev.draw P true]) ∧
    (i.btnA = true → i.btnC = false →
      (v1Tick v1Init i).2 =
        [Ev.noteOn 0 (tine_notes.getD P 0 - 1) 100, Ev.draw P true]) := by
  have hbase : 60 ≤ tine_notes.getD P 0 ∧ tine_notes.getD P 0 ≤ 88 := by
    interval_cases P <;> decide
  have hrun : (v1Tick v1Init i).2 =
      [Ev.noteOn 0 (pressPitch P i) 100, Ev.draw P true] := by
    rw [v1Init_eq, v1_press_step 0 P hP i hch hpt hhit]
  refine ⟨fun hC => ?_, fun hA hC => ?_, fun hA hC => ?_⟩
  · rw [hrun]
    have hpp : pressPitch P i = tine_notes.getD P 0 + 1 := by
      simp only [pressPitch, semitoneOffset, hC, if_true]
      omega
    rw [hpp]
  · rw [hrun]
    have hpp : pressPitch P i = tine_notes.getD P 0 := by
      simp only [pressPitch, semitoneOffset, hA, hC]
      simp only [Bool.false_eq_true, if_false]
      omega
    rw [hpp]
  · rw [hrun]
    have hpp : pressPitch P i = tine_notes.getD P 0 - 1 := by
      simp only [pressPitch, semitoneOffset, hA, hC]
      simp only [Bool.false_eq_true, if_false, if_true]
      omega
    rw [hpp]

/-- C6 witness: tine 0 with the sharp button held. -/
theorem v1_semitone_shift_witness :
    (v1Tick v1Init (⟨true, 1, 9, 23, false, true⟩ : V1Input)).2 =
      [Ev.noteOn 0 (tine_notes.getD 0 0 + 1) 100, Ev.draw 0 true] :=
  (v1_semitone_shift 0 (by decide) ⟨true, 1, 9, 23, false, true⟩
    rfl (by decide) (by decide)).1 rfl

/-- C10: when both modifier buttons are held during the press of tine P,
the sharp assignment overwrites the flat one, so the emitted note-on
carries the base pitch of P plus one. -/
theorem v1_both_buttons_sharp_wins (P : Nat) (hP : P < 17) (i : V1Input)
    (hch : i.touch_changed = true) (hpt : 0 < i.touch_points)
    (hhit : getKeyAtPosition i.tx i.ty = (P : Int))
    (hA : i.btnA = true) (hC : i.btnC = true) :
    (v1Tick v1Init i).2 =
      [Ev.noteOn 0 (tine_notes.getD P 0 + 1) 100, Ev.draw P true] := by
  have hbase : 60 ≤ tine_notes.getD P 0 ∧ tine_notes.getD P 0 ≤ 88 := by
    interval_cases P <;> decide
  rw [v1Init_eq, v1_press_step 0 P hP i hch hpt hhit]
  have : pressPitch P i = tine_notes.getD P 0 + 1 := by
    simp only [pressPitch, semitoneOffset, hC, if_true]
    omega
  rw [this]

/-- C10 witness: tine 2 with both buttons held. -/
theorem v1_both_buttons_sharp_wins_witness :
    (v1Tick v1Init (⟨true, 1, 45, 23, true, true⟩ : V1Input)).2 =
      [Ev.noteOn 0 (tine_notes.getD 2 0 + 1) 100, Ev.draw 2 true] :=
  v1_both_buttons_sharp_wins 2 (by decide) ⟨true, 1, 45, 23, true, true⟩
    rfl (by decide) (by decide) rfl rfl

/-- C3: after any run of the variant 1 loop from boot at most one entry of
the per-tine pressed array is true, and when a press lands on a new tine P
while Q is active the tick emits the note-off for the old stored pitch and
the resting redraw of Q before the note-on and highlighted redraw of P. -/
theorem v1_at_most_one_pressed_release_before_acquire :
    (∀ inputs : List V1Input,
      ((v1Run v1Init inputs).1.key_pressed.filter (fun b => b)).length ≤ 1) ∧
    (∀ (Q oldp P : Nat) (i : V1Input), Q < 17 → P < 17 → P ≠ Q →
      i.touch_changed = true → 0 < i.touch_points →
      getKeyAtPosition i.tx i.ty = (P : Int) →
      (v1Tick (v1Active Q oldp) i).2 =
        [Ev.noteOff 0 oldp 0, Ev.draw Q false,
         Ev.noteOn 0 (pressPitch P i) 100, Ev.draw P true]) := by
  constructor
  · intro inputs
    rcases v1_inv_run inputs with ⟨_, hkp⟩ | ⟨h0, h17, hkp⟩
    · rw [hkp]
      decide
    · rw [hkp]
      have hlt : ((v1Run v1Init inputs).1.active_tine).toNat < 17 := by omega
      rw [filter_set_17 ((v1Run v1Init inputs).1.active_tine).toNat hlt]
  · intro Q oldp P i hQ hP hne hch hpt hhit
    rw [v1_switch_step Q P oldp hQ hP hne i hch hpt hhit]

/-- C3 witness: the empty run, and a switch press from tine 2 to tine 0. -/
theorem v1_at_most_one_pressed_release_before_acquire_witness :
    ((v1Run v1Init []).1.key_pressed.filter (fun b => b)).length ≤ 1 ∧
    (v1Tick (v1Active 2 70) (⟨true, 1, 9, 23, false, false⟩ : V1Input)).2 =
      [Ev.noteOff 0 70 0, Ev.draw 2 false,
       Ev.noteOn 0 (pressPitch 0 (⟨true, 1, 9, 23, false, false⟩ : V1Input)) 100,
       Ev.draw 0 true] :=
  ⟨v1_at_most_one_pressed_release_before_acquire.1 [],
   v1_at_most_one_pressed_release_before_acquire.2 2 70 0
     ⟨true, 1, 9, 23, false, false⟩ (by decide) (by decide) (by decide)
     rfl (by decide) (by decide)⟩

/-- C7: in both variants, two consecutive ticks with no touch reported
emit at most one note-off in total, and the second no-touch tick emits no
command at all (variant 1 from any state satisfying its reachability
invariant; variant 2 from any state). -/
theorem release_transition_idempotent
    (s1 : V1State) (i1 i2 : V1Input) (h1 : V1Inv s1)
    (hp1 : i1.touch_points = 0) (hp2 : i2.touch_points = 0)
    (s2 : V2State) (j1 j2 : V2Input)
    (hq1 : j1.isPressed = false) (hq2 : j2.isPressed = false) :
    (countNoteOffs ((v1Tick s1 i1).2 ++ (v1Tick (v1Tick s1 i1).1 i2).2) ≤ 1 ∧
      (v1Tick (v1Tick s1 i1).1 i2).2 = []) ∧
    (countNoteOffs ((v2Tick s2 j1).2 ++ (v2Tick (v2Tick s2 j1).1 j2).2) ≤ 1 ∧
      (v2Tick (v2Tick s2 j1).1 j2).2 = []) := by
  obtain ⟨hs1, hc1⟩ := v1_release_chain s1 h1 i1 hp1
  have h2run : v1Tick (v1Tick s1 i1).1 i2 = (v1Init, []) := by
    rw [hs1, v1Init_eq]
    exact v1_norelease_step 0 i2 hp2
  obtain ⟨hw, hoff⟩ := v2_release_tick s2 j1 hq1
  have h2run2 : v2Tick (v2Tick s2 j1).1 j2 =
      ({ (v2Tick s2 j1).1 with wasPressed := false }, []) :=
    v2_quiet_tick _ j2 hq2 hw
  refine ⟨⟨?_, by rw [h2run]⟩, ⟨?_, by rw [h2run2]⟩⟩
  · rw [h2run]
    simpa [countNoteOffs, List.filter_append] using hc1
  · rw [h2run2]
    simp [countNoteOffs, List.filter_append, hoff]

/-- C7 witness: variant 1 from an active state, variant 2 mid-release. -/
theorem release_transition_idempotent_witness :
    (countNoteOffs ((v1Tick (v1Active 2 70) (⟨false, 0, 0, 0, false, false⟩ : V1Input)).2 ++
        (v1Tick (v1Tick (v1Active 2 70) (⟨false, 0, 0, 0, false, false⟩ : V1Input)).1
          (⟨false, 0, 0, 0, false, false⟩ : V1Input)).2) ≤ 1 ∧
      (v1Tick (v1Tick (v1Active 2 70) (⟨false, 0, 0, 0, false, false⟩ : V1Input)).1
        (⟨false, 0, 0, 0, false, false⟩ : V1Input)).2 = []) ∧
    (countNoteOffs ((v2Tick ⟨3, 5, true⟩ (⟨false, 0, 0⟩ : V2Input)).2 ++
        (v2Tick (v2Tick ⟨3, 5, true⟩ (⟨false, 0, 0⟩ : V2Input)).1
          (⟨false, 0, 0⟩ : V2Input)).2) ≤ 1 ∧
      (v2Tick (v2Tick ⟨3, 5, true⟩ (⟨false, 0, 0⟩ : V2Input)).1
        (⟨false, 0, 0⟩ : V2Input)).2 = []) :=
  release_transition_idempotent (v1Active 2 70)
    ⟨false, 0, 0, 0, false, false⟩ ⟨false, 0, 0, 0, false, false⟩
    (by decide) rfl rfl ⟨3, 5, true⟩ ⟨false, 0, 0⟩ ⟨false, 0, 0⟩ rfl rfl

/-- C9 counterexample: the touch at x 310 lies past every bar band of
variant 2 (its band index 17 is out of range, so it resolves to no hit),
yet the tick does change the state: it clears the highlighted bar. -/
theorem v2_offrange_touch_changes_state :
    17 ≤ 310 / barWidth ∧
    (v2Tick { selectedBar := 3, lastPressedBar := 3, wasPressed := true }
        { isPressed := true, tx := 310, ty := 50 }).1 ≠
      { selectedBar := 3, lastPressedBar := 3, wasPressed := true } := by
  decide

/-- C9 amended: in both variants every stored tine index stays minus one
or in 0..16 across any tick (so the guarded array accesses stay in
bounds); a touched variant 1 tick whose point resolves to no hit changes
no state and emits nothing; and a pressed variant 2 tick whose point lies
outside every band emits no synth command and leaves the last pressed bar
unchanged, although it does clear the highlight. -/
theorem index_safety_amended :
    (∀ (s : V1State) (i : V1Input), V1Inv s → V1Inv (v1Tick s i).1) ∧
    (∀ (s : V2State) (i : V2Input), V2Inv s → V2Inv (v2Tick s i).1) ∧
    (∀ (s : V1State) (i : V1Input), 0 < i.touch_points →
      getKeyAtPosition i.tx i.ty = -1 → v1Tick s i = (s, [])) ∧
    (∀ (s : V2State) (i : V2Input), i.isPressed = true →
      ((17 : Int) ≤ ((i.tx / barWidth : Nat) : Int) ∨
        (i.ty : Int) < (barY : Int) ∨
        (barY : Int) + getBarHeight (i.tx / barWidth) < (i.ty : Int)) →
      (v2Tick s i).2.filter Ev.isSynth = [] ∧
      (v2Tick s i).1.lastPressedBar = s.lastPressedBar ∧
      (v2Tick s i).1.selectedBar = -1) := by
  refine ⟨v1_inv_step, v2_inv_step, v1_nohit_step, ?_⟩
  intro s i hp hout
  rw [v2_offband_step s i hp hout]
  refine ⟨?_, rfl, rfl⟩
  split_ifs <;> simp [Ev.isSynth]

/-- C9 amended witness: concrete instances of all four conjuncts. -/
theorem index_safety_amended_witness :
    V1Inv (v1Tick (v1Active 2 70) (⟨false, 0, 0, 0, false, false⟩ : V1Input)).1 ∧
    V2Inv (v2Tick ⟨3, 5, true⟩ (⟨false, 0, 0⟩ : V2Input)).1 ∧
    v1Tick (v1Active 2 70) (⟨true, 1, 0, 0, false, false⟩ : V1Input) =
      (v1Active 2 70, []) ∧
    ((v2Tick ⟨3, 5, true⟩ (⟨true, 310, 50⟩ : V2Input)).2.filter Ev.isSynth = [] ∧
      (v2Tick ⟨3, 5, true⟩ (⟨true, 310, 50⟩ : V2Input)).1.lastPressedBar =
        (⟨3, 5, true⟩ : V2State).lastPressedBar ∧
      (v2Tick ⟨3, 5, true⟩ (⟨true, 310, 50⟩ : V2Input)).1.selectedBar = -1) :=
  ⟨index_safety_amended.1 (v1Active 2 70) ⟨false, 0, 0, 0, false, false⟩ (by decide),
   index_safety_amended.2.1 ⟨3, 5, true⟩ ⟨false, 0, 0⟩ (by decide),
   index_safety_amended.2.2.1 (v1Active 2 70) ⟨true, 1, 0, 0, false, false⟩
     (by decide) (by decide),
   index_safety_amended.2.2.2 ⟨3, 5, true⟩ ⟨true, 310, 50⟩ rfl (by decide)⟩

